import Mathlib

/-!
Verification development for the Komodo CLI installer script
(`scripts/install-cli.py`).

The script is embedded shallowly: every Python function becomes a Lean
definition over explicit parameters standing for the ambient state the
script reads (`sys.argv`, `os.environ`, `platform.machine()`, the network,
and the filesystem).  Python exceptions are modelled with `Except`, and the
two shell commands issued through `os.popen` (the `curl` download and
`chmod +x`) are modelled as transformations of an explicit filesystem
state, with the network supplied as an oracle function.
-/

namespace InstallCli

/-- Python exceptions the modelled code can actually raise: `KeyError` from
reading a missing key of `os.environ`, and `IndexError` from an
out-of-bounds list index. -/
inductive PyErr where
  | keyError
  | indexError
deriving DecidableEq

/-- Shape of the JSON object returned by the GitHub latest-release endpoint
`https://api.github.com/repos/moghtech/komodo/releases/latest`; the script
reads only its `tag_name` field. -/
structure ReleaseMeta where
  tag_name : String
deriving DecidableEq

/-- Helper for substring search on character lists: does the second list
start with the first one? -/
def startsWithL : List Char → List Char → Bool
  | [], _ => true
  | _ :: _, [] => false
  | n :: ns, h :: hs => n = h && startsWithL ns hs

/-- Contiguous-substring occurrence on character lists: `hasSubstr hay n`
is true exactly when `n` occurs contiguously in `hay` (the empty list
occurs in everything). -/
def hasSubstr : List Char → List Char → Bool
  | [], needle => needle.isEmpty
  | c :: rest, needle => startsWithL needle (c :: rest) || hasSubstr rest needle

/-- Model of the Python test `s.count(sub) > 0`: `sub` occurs in `s`. -/
def strContains (s sub : String) : Bool := hasSubstr s.data sub.data

/-- Model of Python `s.split("=")` on the character list of `s`: split at
every occurrence of the separator, keeping empty pieces, so the result has
one more element than there are separators. -/
def splitEq : List Char → List (List Char)
  | [] => [[]]
  | c :: rest =>
    if c = '=' then [] :: splitEq rest
    else
      match splitEq rest with
      | [] => [[c]]
      | p :: ps => (c :: p) :: ps

/-- Model of the Python expression `arg.split("=")[1]`.  The result is
`none` when the token contains no `=`, which in Python raises
`IndexError`. -/
def splitEqIdx1 (s : String) : Option String :=
  ((splitEq s.data)[1]?).map (fun l => ⟨l⟩)

/-- The accumulation loop inside `load_version`: for each argument whose
text contains the substring `--version`, overwrite the accumulator with
element 1 of the split of that argument on `=`.  An argument that matches
but has no `=` aborts the whole loop with `IndexError`. -/
def scan_version : String → List String → Except PyErr String
  | ver, [] => .ok ver
  | ver, arg :: rest =>
    if strContains arg "--version" then
      match splitEqIdx1 arg with
      | some v => scan_version v rest
      | none => .error .indexError
    else scan_version ver rest

/-- Model of `load_latest_version()`: one GET of the latest-release
endpoint, returning the `tag_name` field of the JSON response.  The
response is passed in as `meta`. -/
def load_latest_version (meta : ReleaseMeta) : String := meta.tag_name

/-- Model of `load_version()`.  The `Nat` in the result counts how many
metadata queries (calls of `load_latest_version`) were performed. -/
def load_version (args : List String) (meta : ReleaseMeta) :
    Except PyErr (String × Nat) :=
  match scan_version "" args with
  | .error e => .error e
  | .ok version =>
    if version.length = 0 then .ok (load_latest_version meta, 1)
    else .ok (version, 0)

/-- Model of `load_bin_dir()`.  `home = none` models an unset `HOME`
environment variable: the very first line `home_dir = os.environ['HOME']`
then raises `KeyError`, before the `--user` flag is even inspected.  When
`HOME` is set (possibly to the empty string), the function returns the
user-scope path `HOME ++ "/.local/bin"` when `sys.argv.count("--user") > 0`
and the fixed system path otherwise. -/
def load_bin_dir (args : List String) (home : Option String) :
    Except PyErr String :=
  match home with
  | none => .error .keyError
  | some home_dir =>
    if args.count "--user" > 0 then .ok (home_dir ++ "/.local/bin")
    else .ok "/usr/local/bin"

/-- Explicit filesystem state: the set of existing directories, the regular
files with their byte contents (bytes modelled as strings), and the set of
paths carrying the executable permission bit. -/
structure FS where
  dirs : List String
  files : List (String × String)
  execs : List String
deriving DecidableEq

/-- Membership in a list of strings (Boolean). -/
def memStr : List String → String → Bool
  | [], _ => false
  | a :: rest, x => if a = x then true else memStr rest x

/-- Lookup in the association list of files. -/
def lookupFile : List (String × String) → String → Option String
  | [], _ => none
  | (k, v) :: rest, p => if k = p then some v else lookupFile rest p

/-- Remove every entry for path `p` from the file association list. -/
def removeKey : List (String × String) → String → List (String × String)
  | [], _ => []
  | (k, v) :: rest, p =>
    if k = p then removeKey rest p else (k, v) :: removeKey rest p

/-- Remove every occurrence of a string from a list of strings. -/
def removeStr : List String → String → List String
  | [], _ => []
  | a :: rest, x => if a = x then removeStr rest x else a :: removeStr rest x

/-- Model of `os.path.isdir`. -/
def isdir (fs : FS) (d : String) : Bool := memStr fs.dirs d

/-- Model of `os.makedirs`: record the directory as existing. -/
def makedirs (fs : FS) (d : String) : FS := { fs with dirs := d :: fs.dirs }

/-- Model of `os.path.isfile`. -/
def isfile (fs : FS) (p : String) : Bool := (lookupFile fs.files p).isSome

/-- Model of `os.remove`: the file disappears, together with its
permission bits. -/
def removeFile (fs : FS) (p : String) : FS :=
  { fs with files := removeKey fs.files p, execs := removeStr fs.execs p }

/-- Model of the shell redirection `> p`: create or truncate the file at
`p` so that it holds exactly the content `c`; permission bits of a
pre-existing file at `p` are not changed by truncation. -/
def writeFile (fs : FS) (p c : String) : FS :=
  { fs with files := (p, c) :: removeKey fs.files p }

/-- Model of `chmod +x p`: set the executable bit on `p`. -/
def chmodAddX (fs : FS) (p : String) : FS :=
  if memStr fs.execs p then fs else { fs with execs := p :: fs.execs }

/-- Does path `p` carry the executable bit? -/
def isexec (fs : FS) (p : String) : Bool := memStr fs.execs p

/-- Model of Python `str.lower()`, character by character. -/
def pyLower (s : String) : String := ⟨s.data.map Char.toLower⟩

/-- The asset-name choice inlined in `copy_binary`: start from the x86_64
asset name, lower-case the detected machine string, and switch to the
aarch64 asset name exactly when the lowered string equals `aarch64` or
`arm64`. -/
def resolve_asset (archString : String) : String :=
  let arch := pyLower archString
  if arch = "aarch64" ∨ arch = "arm64" then "km-aarch64" else "km-x86_64"

/-- External collaborators of `copy_binary`: the detected machine
architecture (`platform.machine()`) and the network.
`fetch version asset = some body` models a `curl` transfer whose HTTP
response body is `body`; since `curl` is invoked without `-f`, a
non-success HTTP status still delivers the error-page body with exit
status 0, so such a response is just another `some body`.
`fetch version asset = none` models a network failure, in which `curl`
writes nothing, but the shell redirection has already created or truncated
the target file, leaving it empty.  In every case the exit status of the
command is discarded by `os.popen`. -/
structure World where
  machine : String
  fetch : String → String → Option String

/-- The bytes that end up in the target file after the line
`os.popen(fcurl -sSL url > bin_path).read()`: the response body on a
completed transfer, nothing on a network failure. -/
def fetched (w : World) (version asset : String) : String :=
  match w.fetch version asset with
  | some body => body
  | none => ""

/-- First step of `copy_binary`: ensure `bin_dir` exists
(`if not os.path.isdir(bin_dir): os.makedirs(bin_dir)`). -/
def ensure_bin_dir (fs : FS) (bin_dir : String) : FS :=
  if isdir fs bin_dir then fs else makedirs fs bin_dir

/-- Second step of `copy_binary`: delete a pre-existing binary
(`if os.path.isfile(bin_path): os.remove(bin_path)`). -/
def delete_existing (fs : FS) (p : String) : FS :=
  if isfile fs p then removeFile fs p else fs

/-- Model of `copy_binary(bin_dir, version)`: ensure the directory, delete
a pre-existing binary, pick the asset name from the machine architecture,
download the asset into the target path, and mark it executable.  The
download result is never inspected (its stdout is only printed), so the
`chmod` line runs unconditionally. -/
def copy_binary (w : World) (fs : FS) (bin_dir version : String) : FS :=
  let bin_path := bin_dir ++ "/km"
  let fs2 := delete_existing (ensure_bin_dir fs bin_dir) bin_path
  let km_bin := resolve_asset w.machine
  chmodAddX (writeFile fs2 bin_path (fetched w version km_bin)) bin_path

/-- Model of `main()`: resolve the version, resolve the install directory,
then run `copy_binary`; a Python exception in either resolver aborts the
run before any filesystem effect. -/
def main (w : World) (args : List String) (home : Option String)
    (meta : ReleaseMeta) (fs : FS) : Except PyErr FS :=
  match load_version args meta with
  | .error e => .error e
  | .ok (version, _) =>
    match load_bin_dir args home with
    | .error e => .error e
    | .ok bin_dir => .ok (copy_binary w fs bin_dir version)

/-- The observable end state the idempotence property of the spec talks
about: whether the install directory exists, which bytes sit at the target
path, and whether the target is executable. -/
def endState (fs : FS) (bin_dir : String) : Bool × Option String × Bool :=
  (isdir fs bin_dir, lookupFile fs.files (bin_dir ++ "/km"),
   isexec fs (bin_dir ++ "/km"))

/-- A fixed latest-release response used for concrete runs. -/
def meta0 : ReleaseMeta := ⟨"v1.18.4"⟩

/-- The empty filesystem. -/
def fs0 : FS := ⟨[], [], []⟩

/-- A world on an x86_64 machine whose network is down: every transfer
fails. -/
def wFail : World := ⟨"x86_64", fun _ _ => none⟩

/-- A world on an x86_64 machine whose network works: the body delivered
for a transfer records the requested version and asset. -/
def wOK : World := ⟨"x86_64", fun version asset => some (version ++ "/" ++ asset)⟩

/-- A filesystem that already holds an installed binary with stale
content at the default target path. -/
def fsPre : FS :=
  ⟨["/usr/local/bin"], [("/usr/local/bin/km", "OLD")], ["/usr/local/bin/km"]⟩

/-- A list starts with itself followed by anything. -/
theorem startsWithL_append (n z : List Char) : startsWithL n (n ++ z) = true := by
  induction n with
  | nil => rfl
  | cons c cs ih => simp [startsWithL, ih]

/-- A nonempty list occurs as a substring at the head of itself followed by
anything. -/
theorem hasSubstr_append (n z : List Char) (hn : n ≠ []) :
    hasSubstr (n ++ z) n = true := by
  cases n with
  | nil => exact absurd rfl hn
  | cons c cs =>
    show hasSubstr (c :: (cs ++ z)) (c :: cs) = true
    simp [hasSubstr, startsWithL, startsWithL_append]

/-- Every token of the shape `--version=X` contains the substring
`--version`. -/
theorem strContains_version_token (X : String) :
    strContains ("--version=" ++ X) "--version" = true := by
  unfold strContains
  rw [String.data_append]
  have h1 : "--version=".data = "--version".data ++ ['='] := by decide
  rw [h1, List.append_assoc, List.singleton_append]
  exact hasSubstr_append _ _ (by decide)

/-- Splitting a list with no separator yields the one-piece split. -/
theorem splitEq_no_sep (l : List Char) (h : '=' ∉ l) : splitEq l = [l] := by
  induction l with
  | nil => rfl
  | cons c rest ih =>
    simp only [List.mem_cons, not_or] at h
    obtain ⟨h1, h2⟩ := h
    simp only [splitEq]
    rw [if_neg (fun hc => h1 hc.symm), ih h2]

/-- Splitting a list around its first separator peels off the first piece. -/
theorem splitEq_append (a b : List Char) (h : '=' ∉ a) :
    splitEq (a ++ '=' :: b) = a :: splitEq b := by
  induction a with
  | nil => simp [splitEq]
  | cons c cs ih =>
    simp only [List.mem_cons, not_or] at h
    obtain ⟨h1, h2⟩ := h
    simp only [List.cons_append, splitEq, List.append_eq]
    rw [if_neg (fun hc => h1 hc.symm), ih h2]

/-- On a token `--version=X` whose payload `X` has no `=`, the Python
expression `arg.split("=")[1]` yields exactly `X`. -/
theorem splitEqIdx1_version (X : String) (h : '=' ∉ X.data) :
    splitEqIdx1 ("--version=" ++ X) = some X := by
  unfold splitEqIdx1
  rw [String.data_append]
  have h1 : "--version=".data = "--version".data ++ ['='] := by decide
  rw [h1, List.append_assoc, List.singleton_append,
      splitEq_append _ _ (by decide), splitEq_no_sep _ h]
  rfl

/-- Arguments without the substring `--version` leave the accumulator of
the scan loop untouched. -/
theorem scan_version_no_match : ∀ (l : List String) (acc : String),
    (∀ a ∈ l, strContains a "--version" = false) →
    scan_version acc l = .ok acc
  | [], _, _ => rfl
  | a :: rest, acc, h => by
    have ha := h a (List.mem_cons_self a rest)
    simp only [scan_version, ha, Bool.false_eq_true, if_false]
    exact scan_version_no_match rest acc
      (fun x hx => h x (List.mem_cons_of_mem a hx))

/-- If every argument that matches `--version` also contains a `=`, the
scan loop cannot abort: it returns some accumulated value. -/
theorem scan_version_total : ∀ (l : List String) (acc : String),
    (∀ a ∈ l, strContains a "--version" = true →
      (splitEqIdx1 a).isSome = true) →
    ∃ v, scan_version acc l = .ok v
  | [], acc, _ => ⟨acc, rfl⟩
  | a :: rest, acc, h => by
    have hrest : ∀ x ∈ rest, strContains x "--version" = true →
        (splitEqIdx1 x).isSome = true :=
      fun x hx => h x (List.mem_cons_of_mem a hx)
    simp only [scan_version]
    cases hc : strContains a "--version" with
    | false => simpa using scan_version_total rest acc hrest
    | true =>
      have hs := h a (List.mem_cons_self a rest) hc
      cases hm : splitEqIdx1 a with
      | none => rw [hm] at hs; exact absurd hs (by simp)
      | some v => simpa [hm] using scan_version_total rest v hrest

/-- The scan loop processes a concatenation of argument lists left to
right, threading the accumulator. -/
theorem scan_version_append : ∀ (l1 l2 : List String) (acc v : String),
    scan_version acc l1 = .ok v →
    scan_version acc (l1 ++ l2) = scan_version v l2
  | [], _, acc, v, h => by
    cases h
    rfl
  | a :: rest, l2, acc, v, h => by
    simp only [scan_version, List.cons_append] at h ⊢
    cases hc : strContains a "--version" with
    | false =>
      rw [hc] at h
      simp only [Bool.false_eq_true, if_false] at h ⊢
      exact scan_version_append rest l2 acc v h
    | true =>
      rw [hc] at h
      simp only [if_true] at h ⊢
      cases hm : splitEqIdx1 a with
      | none => rw [hm] at h; cases h
      | some vv =>
        rw [hm] at h
        exact scan_version_append rest l2 vv v h

/-- A nonempty string has nonzero length. -/
theorem length_ne_zero_of_ne_empty (X : String) (h : X ≠ "") :
    X.length ≠ 0 := by
  intro h0
  apply h
  apply String.ext
  have : X.data.length = 0 := h0
  exact List.length_eq_zero.mp this

/-- After removing every entry for `p`, looking up `p` finds nothing. -/
theorem lookupFile_removeKey (l : List (String × String)) (p : String) :
    lookupFile (removeKey l p) p = none := by
  induction l with
  | nil => rfl
  | cons kv rest ih =>
    obtain ⟨k, v⟩ := kv
    simp only [removeKey]
    split
    · exact ih
    · simp only [lookupFile]
      rw [if_neg (by assumption)]
      exact ih

/-- Looking up the path just written finds the written content. -/
theorem lookupFile_writeFile (fs : FS) (p c : String) :
    lookupFile (writeFile fs p c).files p = some c := by
  simp [writeFile, lookupFile]

/-- The deletion step leaves no file at the deleted path. -/
theorem isfile_delete_existing (fs : FS) (p : String) :
    isfile (delete_existing fs p) p = false := by
  unfold delete_existing
  split
  · simp [isfile, removeFile, lookupFile_removeKey]
  · rename_i h
    exact Bool.not_eq_true _ ▸ Bool.of_not_eq_true h

/-- The directory-creation step makes the directory exist. -/
theorem isdir_ensure_bin_dir (fs : FS) (d : String) :
    isdir (ensure_bin_dir fs d) d = true := by
  unfold ensure_bin_dir
  split
  · rename_i h
    exact h
  · simp [isdir, makedirs, memStr]

/-- The deletion step never touches directories. -/
theorem dirs_delete_existing (fs : FS) (p : String) :
    (delete_existing fs p).dirs = fs.dirs := by
  unfold delete_existing
  split <;> rfl

/-- Setting the executable bit never touches directories. -/
theorem dirs_chmodAddX (fs : FS) (p : String) :
    (chmodAddX fs p).dirs = fs.dirs := by
  unfold chmodAddX
  split <;> rfl

/-- Setting the executable bit never touches file contents. -/
theorem files_chmodAddX (fs : FS) (p : String) :
    (chmodAddX fs p).files = fs.files := by
  unfold chmodAddX
  split <;> rfl

/-- After `chmod +x p`, the path `p` is executable. -/
theorem isexec_chmodAddX (fs : FS) (p : String) :
    isexec (chmodAddX fs p) p = true := by
  unfold chmodAddX
  split
  · rename_i h
    exact h
  · simp [isexec, memStr]

/-- After `copy_binary`, the install directory exists. -/
theorem copy_binary_isdir (w : World) (fs : FS) (bin_dir version : String) :
    isdir (copy_binary w fs bin_dir version) bin_dir = true := by
  unfold copy_binary
  show isdir _ bin_dir = true
  unfold isdir
  rw [dirs_chmodAddX]
  show memStr (delete_existing (ensure_bin_dir fs bin_dir) _).dirs bin_dir = true
  rw [dirs_delete_existing]
  exact isdir_ensure_bin_dir fs bin_dir

/-- After `copy_binary`, the target path holds exactly the downloaded
bytes (the fetched body, or nothing on a network failure). -/
theorem copy_binary_lookup (w : World) (fs : FS) (bin_dir version : String) :
    lookupFile (copy_binary w fs bin_dir version).files (bin_dir ++ "/km") =
      some (fetched w version (resolve_asset w.machine)) := by
  unfold copy_binary
  rw [files_chmodAddX]
  exact lookupFile_writeFile _ _ _

/-- After `copy_binary`, the target path is executable. -/
theorem copy_binary_isexec (w : World) (fs : FS) (bin_dir version : String) :
    isexec (copy_binary w fs bin_dir version) (bin_dir ++ "/km") = true := by
  unfold copy_binary
  exact isexec_chmodAddX _ _

/-- The observable end state after `copy_binary` does not depend on the
starting filesystem at all. -/
theorem copy_binary_endState (w : World) (fs : FS) (bin_dir version : String) :
    endState (copy_binary w fs bin_dir version) bin_dir =
      (true, some (fetched w version (resolve_asset w.machine)), true) := by
  unfold endState
  rw [copy_binary_isdir, copy_binary_lookup, copy_binary_isexec]

/-- The filesystem state produced by a first run of the installer on the
empty filesystem with default scope under the world `wOK` and the
latest-release response `meta0`. -/
def fs1c : FS :=
  ⟨["/usr/local/bin"], [("/usr/local/bin/km", "v1.18.4/km-x86_64")],
   ["/usr/local/bin/km"]⟩

/-- C1 (counterexample).  The claim reads: for every argument list
containing a token of the shape `--version=X` with nonempty `X`,
`load_version` returns exactly `X`, independent of whatever other
arguments are present.  The list below contains the token `--version=v1`,
for which the claim demands the result `v1`, yet the presence of a later
matching token makes the result `v2`: the loop keeps overwriting the
accumulated value, so the result is not independent of the other
arguments. -/
theorem c1_counterexample :
    load_version ["--version=v1", "--version=v2"] meta0 =
      Except.ok ("v2", 0) ∧ ("v2" : String) ≠ "v1" :=
  ⟨rfl, by decide⟩

/-- C1 (amended).  For every argument list in which the only token
containing the substring `--version` is a single token `--version=X` with
`X` nonempty and free of `=`, `load_version` returns exactly `X` without
querying the metadata endpoint, independent of the surrounding
arguments. -/
theorem c1_amended_thm (meta : ReleaseMeta) (pre post : List String)
    (X : String)
    (hpre : ∀ a ∈ pre, strContains a "--version" = false)
    (hpost : ∀ a ∈ post, strContains a "--version" = false)
    (hX : X ≠ "") (hsep : '=' ∉ X.data) :
    load_version (pre ++ ("--version=" ++ X) :: post) meta =
      Except.ok (X, 0) := by
  have h2 : scan_version "" (pre ++ ("--version=" ++ X) :: post) =
      Except.ok X := by
    rw [scan_version_append pre _ "" "" (scan_version_no_match pre "" hpre)]
    simp [scan_version, strContains_version_token, splitEqIdx1_version X hsep,
      scan_version_no_match post X hpost]
  unfold load_version
  rw [h2]
  show (if X.length = 0 then Except.ok (load_latest_version meta, 1)
        else Except.ok (X, 0)) = Except.ok (X, 0)
  exact if_neg (length_ne_zero_of_ne_empty X hX)

/-- C1 (witness): a concrete run through the amended statement. -/
theorem c1_witness :
    load_version ["install-cli.py", "--user", "--version=v1.2.3", "extra"]
      meta0 = Except.ok ("v1.2.3", 0) :=
  c1_amended_thm meta0 ["install-cli.py", "--user"] ["extra"] "v1.2.3"
    (by decide) (by decide) (by decide) (by decide)

/-- C2 (counterexample).  The claim reads: HOME is required only with
`--user`, its absence with `--user` surfaces as EnvironmentError, and
every run without `--user` resolves the install directory even when HOME
is unset.  In the code, `os.environ` is read before the flag check, so a
run without `--user` and without HOME dies with KeyError instead of
succeeding, and a run with `--user` and an empty HOME succeeds with the
path `/.local/bin` instead of raising anything. -/
theorem c2_counterexample :
    load_bin_dir [] none = Except.error PyErr.keyError ∧
    load_bin_dir ["--user"] (some "") = Except.ok "/.local/bin" :=
  ⟨rfl, rfl⟩

/-- C2 (amended).  `load_bin_dir` reads HOME unconditionally: when HOME is
absent it fails with KeyError whether or not `--user` was passed, and when
HOME is present (even as the empty string) it never fails, returning the
user-scope path exactly when `--user` occurs in the arguments. -/
theorem c2_amended_thm (args : List String) (hd : String) :
    load_bin_dir args none = Except.error PyErr.keyError ∧
    load_bin_dir args (some hd) =
      Except.ok
        (if "--user" ∈ args then hd ++ "/.local/bin" else "/usr/local/bin") := by
  refine ⟨rfl, ?_⟩
  show (if args.count "--user" > 0 then Except.ok (hd ++ "/.local/bin")
        else Except.ok "/usr/local/bin") =
    Except.ok
      (if "--user" ∈ args then hd ++ "/.local/bin" else "/usr/local/bin")
  by_cases hm : "--user" ∈ args
  · rw [if_pos (List.count_pos_iff.mpr hm), if_pos hm]
  · rw [if_neg (fun hpos => hm (List.count_pos_iff.mp hpos)), if_neg hm]

/-- C3.  For every argument list with no token containing `--version`,
`load_version` performs exactly one metadata query (the counter in the
result is 1) and returns the `tag_name` field of the response. -/
theorem c3_latest_query (args : List String) (meta : ReleaseMeta)
    (h : ∀ a ∈ args, strContains a "--version" = false) :
    load_version args meta = Except.ok (load_latest_version meta, 1) := by
  unfold load_version
  rw [scan_version_no_match args "" h]
  rfl

/-- C3 (witness): a concrete run with no version argument. -/
theorem c3_witness :
    load_version ["install-cli.py", "--user"] meta0 =
      Except.ok ("v1.18.4", 1) :=
  c3_latest_query ["install-cli.py", "--user"] meta0 (by decide)

/-- C4.  With HOME available, `load_bin_dir` returns the user-scope path
exactly when the exact token `--user` occurs in the arguments and the
fixed system path otherwise, and its result is invariant under permuting
the argument list. -/
theorem c4_bin_dir (args args2 : List String) (hd : String)
    (hperm : args.Perm args2) :
    load_bin_dir args (some hd) = load_bin_dir args2 (some hd) ∧
    ("--user" ∈ args →
      load_bin_dir args (some hd) = Except.ok (hd ++ "/.local/bin")) ∧
    ("--user" ∉ args →
      load_bin_dir args (some hd) = Except.ok "/usr/local/bin") := by
  refine ⟨?_, ?_, ?_⟩
  · unfold load_bin_dir
    rw [hperm.count_eq "--user"]
  · intro hm
    show (if args.count "--user" > 0 then Except.ok (hd ++ "/.local/bin")
          else Except.ok "/usr/local/bin") = Except.ok (hd ++ "/.local/bin")
    rw [if_pos (List.count_pos_iff.mpr hm)]
  · intro hm
    show (if args.count "--user" > 0 then Except.ok (hd ++ "/.local/bin")
          else Except.ok "/usr/local/bin") = Except.ok "/usr/local/bin"
    rw [if_neg (fun hpos => hm (List.count_pos_iff.mp hpos))]

/-- C4 (witness): a concrete permutation and a concrete user-scope run. -/
theorem c4_witness :
    (["--user", "x"] : List String).Perm ["x", "--user"] ∧
    load_bin_dir ["--user", "x"] (some "/home/alice") =
      Except.ok "/home/alice/.local/bin" :=
  ⟨by decide,
   (c4_bin_dir ["--user", "x"] ["x", "--user"] "/home/alice"
      (by decide)).2.1 (by decide)⟩

/-- C5.  The asset choice lower-cases the architecture string and picks
the aarch64 asset name exactly when the lowered string equals `aarch64` or
`arm64`; every other input gets the x86_64 asset name, as the enumerated
inputs illustrate. -/
theorem c5_asset (s : String) :
    (resolve_asset s = "km-aarch64" ↔
      (pyLower s = "aarch64" ∨ pyLower s = "arm64")) ∧
    (resolve_asset s = "km-aarch64" ∨ resolve_asset s = "km-x86_64") ∧
    resolve_asset "aarch64" = "km-aarch64" ∧
    resolve_asset "arm64" = "km-aarch64" ∧
    resolve_asset "AARCH64" = "km-aarch64" ∧
    resolve_asset "x86_64" = "km-x86_64" ∧
    resolve_asset "amd64" = "km-x86_64" ∧
    resolve_asset "" = "km-x86_64" ∧
    resolve_asset "riscv64" = "km-x86_64" := by
  have hdef : resolve_asset s =
      if pyLower s = "aarch64" ∨ pyLower s = "arm64" then "km-aarch64"
      else "km-x86_64" := rfl
  refine ⟨?_, ?_, by decide, by decide, by decide, by decide, by decide,
    by decide, by decide⟩
  · rw [hdef]
    split
    · rename_i h
      exact ⟨fun _ => h, fun _ => rfl⟩
    · rename_i h
      exact ⟨fun hx => absurd hx (by decide), fun hc => absurd hc h⟩
  · rw [hdef]
    split
    · exact Or.inl rfl
    · exact Or.inr rfl

/-- C6 (counterexample).  The claim reads: the result is the substring of
the last matching token after its first `=`, so `--version=a=b` should
give `a=b`.  The code computes element 1 of the full split on `=`, which
for that token is `a`. -/
theorem c6_counterexample :
    load_version ["--version=a=b"] meta0 = Except.ok ("a", 0) ∧
    ("a" : String) ≠ "a=b" :=
  ⟨rfl, by decide⟩

/-- C6 (amended).  When several tokens contain the substring `--version`,
each of them containing at least one `=`, the result is element 1 of the
split on `=` of the LAST matching token (the piece between its first and
second `=`), provided that piece is nonempty; so `--version=a` followed by
`--version=b` gives `b`, and a last token `--version=a=b` gives `a`, not
`a=b`. -/
theorem c6_amended_thm (meta : ReleaseMeta) (pre post : List String)
    (tok v : String)
    (hpre : ∀ a ∈ pre, strContains a "--version" = true →
      (splitEqIdx1 a).isSome = true)
    (htok : strContains tok "--version" = true)
    (hsplit : splitEqIdx1 tok = some v)
    (hv : v ≠ "")
    (hpost : ∀ a ∈ post, strContains a "--version" = false) :
    load_version (pre ++ tok :: post) meta = Except.ok (v, 0) := by
  obtain ⟨acc, hacc⟩ := scan_version_total pre "" hpre
  have h2 : scan_version "" (pre ++ tok :: post) = Except.ok v := by
    rw [scan_version_append pre _ "" acc hacc]
    simp [scan_version, htok, hsplit, scan_version_no_match post v hpost]
  unfold load_version
  rw [h2]
  show (if v.length = 0 then Except.ok (load_latest_version meta, 1)
        else Except.ok (v, 0)) = Except.ok (v, 0)
  exact if_neg (length_ne_zero_of_ne_empty v hv)

/-- C6 (witness): the last of two version tokens wins. -/
theorem c6_witness :
    load_version ["--version=a", "--version=b"] meta0 = Except.ok ("b", 0) :=
  c6_amended_thm meta0 ["--version=a"] [] "--version=b" "b"
    (by decide) (by decide) (by decide) (by decide) (by decide)

/-- C7 (counterexample).  The claim reads: the asset-fetch step fails with
DownloadError on network failure, and a failed download short-circuits the
chmod step.  In the code the curl exit status is discarded, so on a total
network failure `copy_binary` still returns normally with an empty file
written at the target and the executable bit set by the chmod step that
did run. -/
theorem c7_counterexample :
    copy_binary wFail fs0 "/usr/local/bin" "v1.2.3" =
      ⟨["/usr/local/bin"], [("/usr/local/bin/km", "")],
       ["/usr/local/bin/km"]⟩ ∧
    isexec (copy_binary wFail fs0 "/usr/local/bin" "v1.2.3")
      "/usr/local/bin/km" = true :=
  ⟨rfl, rfl⟩

/-- C7 (amended).  Download failures are not detected: on a network
failure the run continues, the target file ends up existing with empty
content, and the chmod step still executes, leaving the target
executable. -/
theorem c7_amended_thm (w : World) (fs : FS) (bin_dir version : String)
    (hfail : w.fetch version (resolve_asset w.machine) = none) :
    isexec (copy_binary w fs bin_dir version) (bin_dir ++ "/km") = true ∧
    lookupFile (copy_binary w fs bin_dir version).files (bin_dir ++ "/km") =
      some "" := by
  refine ⟨copy_binary_isexec w fs bin_dir version, ?_⟩
  rw [copy_binary_lookup]
  unfold fetched
  rw [hfail]

/-- C7 (witness): a concrete failing download on another path. -/
theorem c7_witness :
    isexec (copy_binary wFail fs0 "/opt/bin" "v2.0.0") "/opt/bin/km" = true ∧
    lookupFile (copy_binary wFail fs0 "/opt/bin" "v2.0.0").files
      "/opt/bin/km" = some "" :=
  c7_amended_thm wFail fs0 "/opt/bin" "v2.0.0" rfl

/-- C8.  When a file already exists at the target path, the deletion step
removes it before the download writes, and after a successful download the
target holds exactly the newly downloaded bytes, with no content of the
old file surviving. -/
theorem c8_overwrite (w : World) (fs : FS) (bin_dir version old body : String)
    (_hold : lookupFile fs.files (bin_dir ++ "/km") = some old)
    (hfetch : w.fetch version (resolve_asset w.machine) = some body) :
    isfile (delete_existing (ensure_bin_dir fs bin_dir) (bin_dir ++ "/km"))
      (bin_dir ++ "/km") = false ∧
    lookupFile (copy_binary w fs bin_dir version).files (bin_dir ++ "/km") =
      some body := by
  refine ⟨isfile_delete_existing _ _, ?_⟩
  rw [copy_binary_lookup]
  unfold fetched
  rw [hfetch]

/-- C8 (witness): overwriting a concrete stale binary. -/
theorem c8_witness :
    isfile (delete_existing (ensure_bin_dir fsPre "/usr/local/bin")
      "/usr/local/bin/km") "/usr/local/bin/km" = false ∧
    lookupFile (copy_binary wOK fsPre "/usr/local/bin" "v9").files
      "/usr/local/bin/km" = some "v9/km-x86_64" :=
  c8_overwrite wOK fsPre "/usr/local/bin" "v9" "OLD" "v9/km-x86_64" rfl rfl

/-- C9.  Running the installer twice with identical arguments, environment
and remote responses: if the first run succeeds, the second also succeeds,
the observable end state (directory present, bytes at the target path,
executable bit) is identical after both runs, and after the first run the
directory is present and the target file is present and executable. -/
theorem c9_idempotent (w : World) (args : List String) (home : Option String)
    (meta : ReleaseMeta) (fs fs1 : FS) (bin_dir : String)
    (h1 : main w args home meta fs = Except.ok fs1)
    (h2 : load_bin_dir args home = Except.ok bin_dir) :
    ∃ fs2, main w args home meta fs1 = Except.ok fs2 ∧
      endState fs2 bin_dir = endState fs1 bin_dir ∧
      isdir fs1 bin_dir = true ∧
      isfile fs1 (bin_dir ++ "/km") = true ∧
      isexec fs1 (bin_dir ++ "/km") = true := by
  cases hv : load_version args meta with
  | error e =>
    simp only [main, hv] at h1
    exact Except.noConfusion h1
  | ok p =>
    obtain ⟨version, n⟩ := p
    simp only [main, hv, h2] at h1 ⊢
    have hfs1 : fs1 = copy_binary w fs bin_dir version :=
      (Except.ok.inj h1).symm
    refine ⟨copy_binary w fs1 bin_dir version, rfl, ?_, ?_, ?_, ?_⟩
    · rw [copy_binary_endState, hfs1, copy_binary_endState]
    · rw [hfs1]
      exact copy_binary_isdir w fs bin_dir version
    · rw [hfs1]
      unfold isfile
      rw [copy_binary_lookup]
      rfl
    · rw [hfs1]
      exact copy_binary_isexec w fs bin_dir version

/-- C9 (witness): a concrete second run over the state left by a concrete
first run. -/
theorem c9_witness :
    ∃ fs2, main wOK [] (some "/home/alice") meta0 fs1c = Except.ok fs2 ∧
      endState fs2 "/usr/local/bin" = endState fs1c "/usr/local/bin" ∧
      isdir fs1c "/usr/local/bin" = true ∧
      isfile fs1c "/usr/local/bin/km" = true ∧
      isexec fs1c "/usr/local/bin/km" = true :=
  c9_idempotent wOK [] (some "/home/alice") meta0 fs0 fs1c "/usr/local/bin"
    rfl rfl

/-- C10.  An argument list with a token containing the substring
`--version` but no `=` (the bare `--version`) makes the index access
`arg.split("=")[1]` go out of bounds: `load_version` raises IndexError and
the whole run aborts with it, instead of returning a version or falling
back to the latest-release query. -/
theorem c10_index_error :
    load_version ["install-cli.py", "--version"] meta0 =
      Except.error PyErr.indexError ∧
    main wOK ["install-cli.py", "--version"] (some "/home/alice") meta0 fs0 =
      Except.error PyErr.indexError :=
  ⟨rfl, rfl⟩

end InstallCli
